import Mathlib

/-!
Formal model of `src/housing_price_analysis.py`.

The script is a straight-line pandas/numpy pipeline:
  * lines 16-25: build a 1000-row DataFrame from independent random draws
    (`np.random.normal`, `np.random.randint`, `np.random.choice`) plus a
    deterministic daily date sequence (`pd.date_range`);
  * lines 28-29: set `Price` to NaN at 50 sampled row indices and `Size`
    to NaN at 30 sampled row indices (`np.random.choice` over `data.index`,
    which samples WITH replacement by default);
  * line 32: write `housing_data.csv` (the raw, pre-cleaning table);
  * lines 40-41: fill missing `Price` with the column median and missing
    `Size` with the column mean (pandas `median`/`mean` skip NaN);
  * lines 44-49: `astype` coercions (identity on the types modelled here);
  * lines 52-54: drop rows whose absolute z-score of `Price` or `Size`
    (post-imputation mean, sample standard deviation `ddof=1`) is not
    strictly below 3.  In IEEE arithmetic a zero standard deviation gives
    `0/0 = NaN`, and `NaN < 3` is `False`, so such rows are dropped.

The numpy random draws are modelled as an abstract input stream `Draws`:
the library guarantees the stream is a pure function of the seed
(line 11, `np.random.seed(42)`), so the script itself is a pure function
of the stream.  Floating-point numbers are idealised as exact rationals;
NaN is modelled by `Option ℚ` with `none` for NaN, and every comparison
against NaN evaluates to `false`, exactly as in numpy/pandas.  The strict
test `|x - μ| / sqrt v < 3` on reals with `sqrt v > 0` is equivalent to
`(x - μ)^2 < 9 * v`, which is the executable rational form used below.
-/

/-- `Neighborhood_Quality` values, line 23: `np.random.choice(["Low", "Medium", "High"], ...)`. -/
inductive Quality where
  | Low : Quality
  | Medium : Quality
  | High : Quality
deriving DecidableEq, Repr, Inhabited

/-- One row of the DataFrame built on lines 16-25.  `Price` and `Size` are
`Option ℚ` because lines 28-29 can overwrite them with NaN (`none`).
`Sale_Date` counts days after 2023-01-01, matching
`pd.date_range(start="2023-01-01", periods=n_samples, freq="D")`. -/
structure Row where
  Price : Option ℚ
  Size : Option ℚ
  Bedrooms : ℤ
  Bathrooms : ℤ
  Age : ℤ
  Distance_City : ℚ
  Neighborhood_Quality : Quality
  Sale_Date : ℕ
deriving DecidableEq, Repr, Inhabited

/-- Line 15: `n_samples = 1000`. -/
def n_samples : ℕ := 1000

/-- The random draws consumed by the script, one list per numpy call:
`prices`/`sizes`/`distances` from `np.random.normal`, `bedrooms` from
`np.random.randint(1, 6, ...)`, `bathrooms` from `np.random.randint(1, 4, ...)`,
`ages` from `np.random.randint(0, 50, ...)`, `qualities` from
`np.random.choice` over the three labels, and `priceNaIdx`/`sizeNaIdx` the
row indices returned by `np.random.choice(data.index, 50)` and
`np.random.choice(data.index, 30)` on lines 28-29. -/
structure Draws where
  prices : List ℚ
  sizes : List ℚ
  bedrooms : List ℤ
  bathrooms : List ℤ
  ages : List ℤ
  distances : List ℚ
  qualities : List Quality
  priceNaIdx : List ℕ
  sizeNaIdx : List ℕ

/-- What the numpy calls guarantee about their outputs: each per-row list
has `n_samples` entries; `randint(lo, hi)` draws lie in `[lo, hi)`; the
index samples of lines 28-29 have the requested lengths and are valid row
labels of `data.index` (i.e. `< n_samples`).  `np.random.choice` samples
with replacement by default, so no distinctness is guaranteed. -/
def ValidDraws (d : Draws) : Prop :=
  d.prices.length = n_samples ∧
  d.sizes.length = n_samples ∧
  d.bedrooms.length = n_samples ∧
  d.bathrooms.length = n_samples ∧
  d.ages.length = n_samples ∧
  d.distances.length = n_samples ∧
  d.qualities.length = n_samples ∧
  (∀ b ∈ d.bedrooms, 1 ≤ b ∧ b < 6) ∧
  (∀ b ∈ d.bathrooms, 1 ≤ b ∧ b < 4) ∧
  (∀ a ∈ d.ages, 0 ≤ a ∧ a < 50) ∧
  d.priceNaIdx.length = 50 ∧
  (∀ i ∈ d.priceNaIdx, i < n_samples) ∧
  d.sizeNaIdx.length = 30 ∧
  (∀ i ∈ d.sizeNaIdx, i < n_samples)

instance (d : Draws) : Decidable (ValidDraws d) := by
  unfold ValidDraws; infer_instance

/-- Row `i` of the DataFrame literal on lines 16-25: the `i`-th draw of each
column, and `Sale_Date = i` days after 2023-01-01. -/
def mkRow (d : Draws) (i : ℕ) : Row :=
  { Price := some (d.prices.getD i 0)
  , Size := some (d.sizes.getD i 0)
  , Bedrooms := d.bedrooms.getD i 0
  , Bathrooms := d.bathrooms.getD i 0
  , Age := d.ages.getD i 0
  , Distance_City := d.distances.getD i 0
  , Neighborhood_Quality := d.qualities.getD i Quality.Low
  , Sale_Date := i }

/-- Lines 16-25: `data = pd.DataFrame({...})`, rows in generation order. -/
def rawTable (d : Draws) : List Row :=
  (List.range n_samples).map (mkRow d)

/-- Line 28: `data.loc[np.random.choice(data.index, 50), "Price"] = np.nan`.
Row labels equal positions here (`RangeIndex`); duplicate labels in the
sample simply assign the same cell twice. -/
def setPriceNa (idx : List ℕ) (t : List Row) : List Row :=
  t.mapIdx fun i r => if i ∈ idx then { r with Price := none } else r

/-- Line 29: `data.loc[np.random.choice(data.index, 30), "Size"] = np.nan`. -/
def setSizeNa (idx : List ℕ) (t : List Row) : List Row :=
  t.mapIdx fun i r => if i ∈ idx then { r with Size := none } else r

/-- The table produced by the Synthesizer stage (lines 16-29), i.e. the
state of `data` at line 32 when it is written to `housing_data.csv`. -/
def synthesize (d : Draws) : List Row :=
  setSizeNa d.sizeNaIdx (setPriceNa d.priceNaIdx (rawTable d))

/-- Row `i` of the synthesized table, written directly: the generated row
with `Price`/`Size` knocked out to NaN when `i` was sampled on line 28/29. -/
def synthRow (d : Draws) (i : ℕ) : Row :=
  let r1 := mkRow d i
  let r2 := if i ∈ d.priceNaIdx then { r1 with Price := none } else r1
  if i ∈ d.sizeNaIdx then { r2 with Size := none } else r2

/-- Non-NaN entries of a column, in order: pandas statistics (`mean`,
`median`, `std`) skip NaN (`skipna=True` default). -/
def colVals : List (Option ℚ) → List ℚ
  | [] => []
  | none :: rest => colVals rest
  | some x :: rest => x :: colVals rest

/-- pandas `Series.mean()`: arithmetic mean of the non-NaN entries, NaN
(`none`) when there are none. -/
def seriesMean (col : List (Option ℚ)) : Option ℚ :=
  let v := colVals col
  if v.length = 0 then none else some (v.sum / (v.length : ℚ))

/-- pandas `Series.median()`: sort the non-NaN entries; odd count gives the
middle element, even count the average of the two middle elements, empty
gives NaN. -/
def seriesMedian (col : List (Option ℚ)) : Option ℚ :=
  let v := (colVals col).insertionSort (fun a b => a ≤ b)
  if v.length = 0 then none
  else if v.length % 2 = 1 then some (v.getD (v.length / 2) 0)
  else some ((v.getD (v.length / 2 - 1) 0 + v.getD (v.length / 2) 0) / 2)

/-- The square of pandas `Series.std()`: sample variance of the non-NaN
entries with divisor `n - 1` (the pandas default `ddof=1`); NaN (`none`)
when fewer than two entries remain. -/
def seriesVar (col : List (Option ℚ)) : Option ℚ :=
  let v := colVals col
  if v.length ≤ 1 then none
  else
    let m := v.sum / (v.length : ℚ)
    some ((v.map fun x => (x - m) ^ 2).sum / ((v.length : ℚ) - 1))

/-- Population variance, divisor `n` (`ddof=0`) — NOT what `Series.std()`
uses; defined only to contrast with `seriesVar`. -/
def seriesVarPop (col : List (Option ℚ)) : Option ℚ :=
  let v := colVals col
  if v.length = 0 then none
  else
    let m := v.sum / (v.length : ℚ)
    some ((v.map fun x => (x - m) ^ 2).sum / (v.length : ℚ))

/-- `Series.fillna(value)` on one cell: a NaN cell becomes `fill`, a
non-NaN cell is unchanged.  (`fill = none` happens only when the whole
column was NaN, and then `fillna` changes nothing.) -/
def fillCell (fill : Option ℚ) (x : Option ℚ) : Option ℚ :=
  match x with
  | none => fill
  | some a => some a

/-- Lines 40-41: fill missing `Price` with `data["Price"].median()` and
missing `Size` with `data["Size"].mean()`.  The source performs the two
`fillna` calls in sequence on the shared frame, but each statistic reads
only its own column, which the other call never touches, so computing both
from the incoming table is exact. -/
def imputeTable (t : List Row) : List Row :=
  let pm := seriesMedian (t.map Row.Price)
  let sm := seriesMean (t.map Row.Size)
  t.map fun r => { r with Price := fillCell pm r.Price, Size := fillCell sm r.Size }

/-- Lines 44-49: `astype(float)` on float columns and `astype(int)` on
integer columns — the identity on the types this model already carries. -/
def astypeCols (t : List Row) : List Row := t

/-- One cell of the filter mask on line 54, for a column with mean `μ` and
squared standard deviation `v`: the float expression
`np.abs((x - μ) / std) < 3`.  With `x`, `μ`, `v` all present and `v > 0`
this is `(x - μ)^2 < 9 * v`; a NaN input (`none`) or a zero/NaN standard
deviation makes the z-score NaN (or the comparison `inf < 3`), and every
such comparison is `False` in numpy. -/
def zOk (x μ v : Option ℚ) : Bool :=
  match x, μ, v with
  | some x, some μ, some v => decide (0 < v ∧ (x - μ) ^ 2 < 9 * v)
  | _, _, _ => false

/-- Lines 52-54: compute `price_z` and `size_z` from the post-imputation
column means and sample standard deviations, and keep the rows where both
are strictly below 3 — a single pass with statistics fixed up front. -/
def removeOutliers (t : List Row) : List Row :=
  let pm := seriesMean (t.map Row.Price)
  let pv := seriesVar (t.map Row.Price)
  let sm := seriesMean (t.map Row.Size)
  let sv := seriesVar (t.map Row.Size)
  t.filter fun r => zOk r.Price pm pv && zOk r.Size sm sv

/-- The Cleaner stage, lines 40-54: impute, coerce types, drop outliers. -/
def cleanTable (t : List Row) : List Row :=
  removeOutliers (astypeCols (imputeTable t))

/-- Outlier removal as it would read with population (`ddof=0`) standard
deviations — defined only to contrast with `removeOutliers`. -/
def removeOutliersPop (t : List Row) : List Row :=
  let pm := seriesMean (t.map Row.Price)
  let pv := seriesVarPop (t.map Row.Price)
  let sm := seriesMean (t.map Row.Size)
  let sv := seriesVarPop (t.map Row.Size)
  t.filter fun r => zOk r.Price pm pv && zOk r.Size sm sv

/-- Cleaner variant using population standard deviations (contrast only). -/
def cleanTablePop (t : List Row) : List Row :=
  removeOutliersPop (astypeCols (imputeTable t))

/-- The header `data.to_csv` writes on line 32: the DataFrame column names
(`index=False`, so no index column). -/
def csvHeader : List String :=
  ["Price", "Size", "Bedrooms", "Bathrooms", "Age", "Distance_City",
   "Neighborhood_Quality", "Sale_Date"]

/-- The Record schema field names of the data model as realised in the
code: the spec's `price`, `size`, ..., `sale_date` fields are these
DataFrame column labels. -/
def recordFieldNames : List String :=
  ["Price", "Size", "Bedrooms", "Bathrooms", "Age", "Distance_City",
   "Neighborhood_Quality", "Sale_Date"]

/-- Observable result of one run of the script's data pipeline: every
write to `housing_data.csv` (header and rows, in program order) and the
final in-memory table handed to the plotting sections. -/
structure RunResult where
  csvWrites : List (List String × List Row)
  finalTable : List Row
deriving DecidableEq

/-- Lines 11-54 end to end: synthesize (lines 16-29), write the CSV once
(line 32), then clean (lines 40-54).  `to_csv` is the only file write of
the table in the script. -/
def runScript (d : Draws) : RunResult :=
  let t := synthesize d
  let writes := [(csvHeader, t)]
  { csvWrites := writes, finalTable := cleanTable t }

/-- Number of rows whose `Price` is missing. -/
def countMissingPrice (t : List Row) : ℕ :=
  (t.filter fun r => r.Price.isNone).length

/-- Number of rows whose `Size` is missing. -/
def countMissingSize (t : List Row) : ℕ :=
  (t.filter fun r => r.Size.isNone).length

/-- Two rows agree on every field the Cleaner never writes to
(everything except `Price` and `Size`). -/
def frameEq (r s : Row) : Prop :=
  r.Bedrooms = s.Bedrooms ∧ r.Bathrooms = s.Bathrooms ∧ r.Age = s.Age ∧
  r.Distance_City = s.Distance_City ∧
  r.Neighborhood_Quality = s.Neighborhood_Quality ∧ r.Sale_Date = s.Sale_Date

/-- A concrete valid draw stream.  Its `priceNaIdx` sample repeats index 0
fifty times — a stream `np.random.choice` can return, since it samples
with replacement — so only one row ends up with a missing `Price`. -/
def d0 : Draws :=
  { prices := List.replicate n_samples 500000
  , sizes := List.replicate n_samples 2000
  , bedrooms := List.replicate n_samples 3
  , bathrooms := List.replicate n_samples 2
  , ages := List.replicate n_samples 10
  , distances := List.replicate n_samples 5
  , qualities := List.replicate n_samples Quality.Medium
  , priceNaIdx := List.replicate 50 0
  , sizeNaIdx := List.replicate 30 1 }

/-- A row with given `Price` and `Size` and fixed values elsewhere, for
small concrete tables. -/
def simpleRow (p s : Option ℚ) (n : ℕ) : Row :=
  { Price := p, Size := s, Bedrooms := 3, Bathrooms := 2, Age := 10
  , Distance_City := 5, Neighborhood_Quality := Quality.Medium, Sale_Date := n }

/-- A small table with one missing `Price` and one missing `Size`. -/
def tC4 : List Row :=
  [simpleRow (some 1) none 0, simpleRow none (some 2) 1, simpleRow (some 3) (some 4) 2]

/-- A table whose `Price` column is constant (standard deviation zero)
while its `Size` column is well spread. -/
def tC6 : List Row :=
  [simpleRow (some 1) (some 0) 0, simpleRow (some 1) (some 1) 1, simpleRow (some 1) (some 2) 2]

/-- Ten rows: nine prices at 0 and one at 10.  The outlier's squared
z-score is 81/90 · 9 = 8.1 with the sample variance (10) but exactly 9
with the population variance (9), so the two conventions disagree on it. -/
def tC10 : List Row :=
  [simpleRow (some 0) (some 0) 0, simpleRow (some 0) (some 1) 1,
   simpleRow (some 0) (some 0) 2, simpleRow (some 0) (some 1) 3,
   simpleRow (some 0) (some 0) 4, simpleRow (some 0) (some 1) 5,
   simpleRow (some 0) (some 0) 6, simpleRow (some 0) (some 1) 7,
   simpleRow (some 0) (some 0) 8, simpleRow (some 10) (some 1) 9]

/-! ## Supporting lemmas -/

theorem colVals_eq_filterMap (col : List (Option ℚ)) : colVals col = col.filterMap id := by
  induction col with
  | nil => rfl
  | cons x rest ih => cases x <;> simp [colVals, ih]

theorem length_rawTable (d : Draws) : (rawTable d).length = n_samples := by
  simp [rawTable]

theorem mapIdx_map_range {α : Type} (f : ℕ → α) (g : ℕ → α → α) (n : ℕ) :
    (((List.range n).map f).mapIdx g) = (List.range n).map (fun i => g i (f i)) := by
  apply List.ext_get
  · simp [List.length_mapIdx]
  · intro i h1 h2
    rw [List.get_mapIdx]
    · simp
    · simpa using h1

theorem synthesize_eq (d : Draws) :
    synthesize d = (List.range n_samples).map (synthRow d) := by
  unfold synthesize setPriceNa setSizeNa rawTable
  rw [mapIdx_map_range, mapIdx_map_range]
  rfl

theorem length_synthesize (d : Draws) : (synthesize d).length = n_samples := by
  rw [synthesize_eq]; simp

theorem length_filter_range_mem (idx : List ℕ) (n : ℕ) (h : ∀ i ∈ idx, i < n) :
    ((List.range n).filter (fun i => decide (i ∈ idx))).length = idx.dedup.length := by
  have hnd : ((List.range n).filter (fun i => decide (i ∈ idx))).Nodup :=
    (List.nodup_range n).filter _
  rw [← List.toFinset_card_of_nodup hnd, ← List.card_toFinset]
  congr 1
  ext a
  simp only [List.mem_toFinset, List.mem_filter, List.mem_range, decide_eq_true_eq]
  exact ⟨fun ha => ha.2, fun ha => ⟨h a ha, ha⟩⟩

theorem countMissingPrice_synthesize (d : Draws)
    (hlt : ∀ i ∈ d.priceNaIdx, i < n_samples) :
    countMissingPrice (synthesize d) = d.priceNaIdx.dedup.length := by
  rw [synthesize_eq]
  unfold countMissingPrice
  rw [List.filter_map, List.length_map]
  have hpred : ∀ i ∈ List.range n_samples,
      ((Function.comp (fun r => Option.isNone r.Price) (synthRow d)) i)
        = decide (i ∈ d.priceNaIdx) := by
    intro i _
    unfold synthRow mkRow Function.comp
    by_cases h1 : i ∈ d.priceNaIdx <;> by_cases h2 : i ∈ d.sizeNaIdx <;> simp [h1, h2]
  rw [List.filter_congr hpred]
  exact length_filter_range_mem _ _ hlt

theorem countMissingSize_synthesize (d : Draws)
    (hlt : ∀ i ∈ d.sizeNaIdx, i < n_samples) :
    countMissingSize (synthesize d) = d.sizeNaIdx.dedup.length := by
  rw [synthesize_eq]
  unfold countMissingSize
  rw [List.filter_map, List.length_map]
  have hpred : ∀ i ∈ List.range n_samples,
      ((Function.comp (fun r => Option.isNone r.Size) (synthRow d)) i)
        = decide (i ∈ d.sizeNaIdx) := by
    intro i _
    unfold synthRow mkRow Function.comp
    by_cases h1 : i ∈ d.priceNaIdx <;> by_cases h2 : i ∈ d.sizeNaIdx <;> simp [h1, h2]
  rw [List.filter_congr hpred]
  exact length_filter_range_mem _ _ hlt

theorem exists_not_of_filter_length_lt {α : Type} {l : List α} {p : α → Bool}
    (h : (l.filter p).length < l.length) : ∃ x ∈ l, ¬ p x := by
  by_contra hc
  push_neg at hc
  have he : l.filter p = l := List.filter_eq_self.mpr (fun a ha => by simpa using hc a ha)
  rw [he] at h
  exact lt_irrefl _ h

theorem seriesMedian_isSome {col : List (Option ℚ)} (h : ∃ x, some x ∈ col) :
    (seriesMedian col).isSome := by
  obtain ⟨x, hx⟩ := h
  have hmem : x ∈ colVals col := by
    rw [colVals_eq_filterMap]
    exact List.mem_filterMap.mpr ⟨some x, hx, rfl⟩
  have hlen : ((colVals col).insertionSort (fun a b => a ≤ b)).length ≠ 0 := by
    rw [(List.perm_insertionSort (fun a b => a ≤ b) (colVals col)).length_eq]
    exact List.length_pos.mpr (List.ne_nil_of_mem hmem) |>.ne'
  unfold seriesMedian
  simp only [hlen, if_false]
  split <;> simp

theorem seriesMean_isSome {col : List (Option ℚ)} (h : ∃ x, some x ∈ col) :
    (seriesMean col).isSome := by
  obtain ⟨x, hx⟩ := h
  have hmem : x ∈ colVals col := by
    rw [colVals_eq_filterMap]
    exact List.mem_filterMap.mpr ⟨some x, hx, rfl⟩
  have hlen : (colVals col).length ≠ 0 :=
    (List.length_pos.mpr (List.ne_nil_of_mem hmem)).ne'
  unfold seriesMean
  simp [hlen]

theorem imputeTable_no_null (t : List Row)
    (hp : (seriesMedian (t.map Row.Price)).isSome)
    (hs : (seriesMean (t.map Row.Size)).isSome) :
    ∀ r ∈ imputeTable t, r.Price.isSome ∧ r.Size.isSome := by
  intro r hr
  unfold imputeTable at hr
  simp only [List.mem_map] at hr
  obtain ⟨s, _, rfl⟩ := hr
  constructor
  · cases hps : s.Price with
    | none => simpa [fillCell, hps] using hp
    | some a => simp [fillCell, hps]
  · cases hss : s.Size with
    | none => simpa [fillCell, hss] using hs
    | some a => simp [fillCell, hss]

theorem exists_price_some (d : Draws) (hv : ValidDraws d) :
    ∃ x, some x ∈ (synthesize d).map Row.Price := by
  obtain ⟨_, _, _, _, _, _, _, _, _, _, hp50, hplt, _, _⟩ := hv
  have hcount : countMissingPrice (synthesize d) ≤ 50 := by
    rw [countMissingPrice_synthesize d hplt]
    calc d.priceNaIdx.dedup.length ≤ d.priceNaIdx.length := (List.dedup_sublist _).length_le
      _ = 50 := hp50
  have hlen := length_synthesize d
  have hlt : (List.filter (fun r => r.Price.isNone) (synthesize d)).length
      < (synthesize d).length := by
    unfold countMissingPrice at hcount
    rw [hlen]
    unfold n_samples
    omega
  obtain ⟨r, hr, hnp⟩ := exists_not_of_filter_length_lt hlt
  cases hx : r.Price with
  | none => simp [hx] at hnp
  | some x => exact ⟨x, List.mem_map.mpr ⟨r, hr, hx⟩⟩

theorem exists_size_some (d : Draws) (hv : ValidDraws d) :
    ∃ x, some x ∈ (synthesize d).map Row.Size := by
  obtain ⟨_, _, _, _, _, _, _, _, _, _, _, _, hs30, hslt⟩ := hv
  have hcount : countMissingSize (synthesize d) ≤ 30 := by
    rw [countMissingSize_synthesize d hslt]
    calc d.sizeNaIdx.dedup.length ≤ d.sizeNaIdx.length := (List.dedup_sublist _).length_le
      _ = 30 := hs30
  have hlen := length_synthesize d
  have hlt : (List.filter (fun r => r.Size.isNone) (synthesize d)).length
      < (synthesize d).length := by
    unfold countMissingSize at hcount
    rw [hlen]
    unfold n_samples
    omega
  obtain ⟨r, hr, hnp⟩ := exists_not_of_filter_length_lt hlt
  cases hx : r.Size with
  | none => simp [hx] at hnp
  | some x => exact ⟨x, List.mem_map.mpr ⟨r, hr, hx⟩⟩

theorem mem_cleanTable_iff (t : List Row) (r : Row) :
    r ∈ cleanTable t ↔ r ∈ imputeTable t ∧
      zOk r.Price (seriesMean ((imputeTable t).map Row.Price))
        (seriesVar ((imputeTable t).map Row.Price)) = true ∧
      zOk r.Size (seriesMean ((imputeTable t).map Row.Size))
        (seriesVar ((imputeTable t).map Row.Size)) = true := by
  unfold cleanTable astypeCols removeOutliers
  rw [List.mem_filter]
  simp [Bool.and_eq_true]

theorem zOk_true_elim {x μ v : Option ℚ} (h : zOk x μ v = true) :
    ∃ a m s, x = some a ∧ μ = some m ∧ v = some s ∧ 0 < s ∧ (a - m) ^ 2 < 9 * s := by
  cases x with
  | none => simp [zOk] at h
  | some a =>
    cases μ with
    | none => simp [zOk] at h
    | some m =>
      cases v with
      | none => simp [zOk] at h
      | some s =>
        simp only [zOk, decide_eq_true_eq] at h
        exact ⟨a, m, s, rfl, rfl, rfl, h.1, h.2⟩

theorem cleanTable_sublist (t : List Row) : (cleanTable t).Sublist (imputeTable t) := by
  unfold cleanTable astypeCols removeOutliers
  exact List.filter_sublist _

theorem length_cleanTable_le (t : List Row) : (cleanTable t).length ≤ t.length := by
  calc (cleanTable t).length ≤ (imputeTable t).length := (cleanTable_sublist t).length_le
    _ = t.length := by unfold imputeTable; rw [List.length_map]

theorem getD_mem_of_lt {α : Type} (l : List α) (i : ℕ) (a : α) (h : i < l.length) :
    l.getD i a ∈ l := by
  rw [List.getD_eq_getElem?_getD, List.getElem?_eq_getElem h]
  exact List.getElem_mem h

theorem getD_map_row (f : Row → Row) (l : List Row) (i : ℕ) (h : i < l.length) :
    (l.map f).getD i default = f (l.getD i default) := by
  rw [List.getD_eq_getElem?_getD, List.getD_eq_getElem?_getD, List.getElem?_map,
    List.getElem?_eq_getElem h]
  rfl

theorem synthRow_frame (d : Draws) (i : ℕ) :
    (synthRow d i).Bedrooms = d.bedrooms.getD i 0 ∧
    (synthRow d i).Bathrooms = d.bathrooms.getD i 0 ∧
    (synthRow d i).Age = d.ages.getD i 0 ∧
    (synthRow d i).Neighborhood_Quality = d.qualities.getD i Quality.Low ∧
    (synthRow d i).Sale_Date = i := by
  unfold synthRow mkRow
  by_cases h1 : i ∈ d.priceNaIdx <;> by_cases h2 : i ∈ d.sizeNaIdx <;> simp [h1, h2]

theorem d0_valid : ValidDraws d0 := by
  refine ⟨by simp [d0], by simp [d0], by simp [d0], by simp [d0], by simp [d0],
    by simp [d0], by simp [d0], ?_, ?_, ?_, by simp [d0], ?_, by simp [d0], ?_⟩
  · intro b hb
    have hb3 : b = 3 := List.eq_of_mem_replicate hb
    omega
  · intro b hb
    have hb2 : b = 2 := List.eq_of_mem_replicate hb
    omega
  · intro a ha
    have ha10 : a = 10 := List.eq_of_mem_replicate ha
    omega
  · intro i hi
    have hi0 : i = 0 := List.eq_of_mem_replicate hi
    rw [hi0]
    norm_num [n_samples]
  · intro i hi
    have hi1 : i = 1 := List.eq_of_mem_replicate hi
    rw [hi1]
    norm_num [n_samples]

theorem imputeTable_tC6 : imputeTable tC6 = tC6 := by
  simp [imputeTable, tC6, simpleRow, fillCell]

theorem imputeTable_tC10 : imputeTable tC10 = tC10 := by
  simp [imputeTable, tC10, simpleRow, fillCell]

theorem tC6_price_var : seriesVar (tC6.map Row.Price) = some 0 := by
  norm_num [tC6, simpleRow, seriesVar, colVals]

theorem tC6_price_mean : seriesMean (tC6.map Row.Price) = some 1 := by
  norm_num [tC6, simpleRow, seriesMean, colVals]

theorem tC6_size_mean : seriesMean (tC6.map Row.Size) = some 1 := by
  norm_num [tC6, simpleRow, seriesMean, colVals]

theorem tC6_size_var : seriesVar (tC6.map Row.Size) = some 1 := by
  norm_num [tC6, simpleRow, seriesVar, colVals]

theorem cleanTable_tC6 : cleanTable tC6 = [] := by
  unfold cleanTable astypeCols removeOutliers
  rw [imputeTable_tC6]
  simp only [tC6_price_var, tC6_price_mean, tC6_size_mean, tC6_size_var]
  norm_num [tC6, simpleRow, zOk, List.filter_cons]

theorem tC10_price_mean : seriesMean (tC10.map Row.Price) = some 1 := by
  norm_num [tC10, simpleRow, seriesMean, colVals]

theorem tC10_price_var : seriesVar (tC10.map Row.Price) = some 10 := by
  norm_num [tC10, simpleRow, seriesVar, colVals]

theorem tC10_price_varp : seriesVarPop (tC10.map Row.Price) = some 9 := by
  norm_num [tC10, simpleRow, seriesVarPop, colVals]

theorem tC10_size_mean : seriesMean (tC10.map Row.Size) = some (1/2) := by
  norm_num [tC10, simpleRow, seriesMean, colVals]

theorem tC10_size_var : seriesVar (tC10.map Row.Size) = some (5/18) := by
  norm_num [tC10, simpleRow, seriesVar, colVals]

theorem tC10_size_varp : seriesVarPop (tC10.map Row.Size) = some (1/4) := by
  norm_num [tC10, simpleRow, seriesVarPop, colVals]

theorem cleanTable_tC10 : (cleanTable tC10).length = 10 := by
  unfold cleanTable astypeCols removeOutliers
  rw [imputeTable_tC10]
  simp only [tC10_price_var, tC10_price_mean, tC10_size_mean, tC10_size_var]
  norm_num [tC10, simpleRow, zOk, List.filter_cons]

theorem cleanTablePop_tC10 : (cleanTablePop tC10).length = 9 := by
  unfold cleanTablePop astypeCols removeOutliersPop
  rw [imputeTable_tC10]
  simp only [tC10_price_varp, tC10_price_mean, tC10_size_mean, tC10_size_varp]
  norm_num [tC10, simpleRow, zOk, List.filter_cons]

theorem tC4_price_median : seriesMedian (tC4.map Row.Price) = some 2 := by
  norm_num [tC4, simpleRow, seriesMedian, colVals, List.insertionSort, List.orderedInsert]

theorem tC4_size_mean : seriesMean (tC4.map Row.Size) = some 3 := by
  norm_num [tC4, simpleRow, seriesMean, colVals]

/-! ## Claim theorems -/

/-- Claim C1: for a fixed pseudo-random seed, every run of the Synthesizer
produces the identical table.  The numpy generator is a pure function of
the seed, so two runs of the script over the stream drawn from equal seeds
produce equal results — bit-identical values in every column of every row,
including the CSV write and the final cleaned table. -/
theorem synthesizer_deterministic (gen : ℕ → Draws) (s₁ s₂ : ℕ) (h : s₁ = s₂) :
    runScript (gen s₁) = runScript (gen s₂) := by rw [h]

/-- Witness for `synthesizer_deterministic` at seed 42 and a concrete
stream function. -/
theorem synthesizer_deterministic_witness :
    (42 : ℕ) = 42 ∧ runScript ((fun _ => d0) 42) = runScript ((fun _ => d0) 42) :=
  ⟨rfl, synthesizer_deterministic (fun _ => d0) 42 42 rfl⟩

/-- Claim C2, amended: in the synthesized table before cleaning, the number
of rows with a missing price equals the number of distinct indices in the
50 sampled price positions — hence at most 50, with equality exactly when
the sample happens to be duplicate-free — and likewise at most 30 for
size.  (`np.random.choice` samples with replacement, so exactly-50/30 is
not guaranteed.) -/
theorem missing_value_counts (d : Draws) (hv : ValidDraws d) :
    countMissingPrice (synthesize d) = d.priceNaIdx.dedup.length ∧
    countMissingSize (synthesize d) = d.sizeNaIdx.dedup.length ∧
    countMissingPrice (synthesize d) ≤ 50 ∧
    countMissingSize (synthesize d) ≤ 30 ∧
    (d.priceNaIdx.Nodup → countMissingPrice (synthesize d) = 50) ∧
    (d.sizeNaIdx.Nodup → countMissingSize (synthesize d) = 30) := by
  obtain ⟨-, -, -, -, -, -, -, -, -, -, hp50, hplt, hs30, hslt⟩ := hv
  have h1 := countMissingPrice_synthesize d hplt
  have h2 := countMissingSize_synthesize d hslt
  refine ⟨h1, h2, ?_, ?_, ?_, ?_⟩
  · rw [h1, ← hp50]
    exact (List.dedup_sublist _).length_le
  · rw [h2, ← hs30]
    exact (List.dedup_sublist _).length_le
  · intro hnd
    rw [h1, hnd.dedup]
    exact hp50
  · intro hnd
    rw [h2, hnd.dedup]
    exact hs30

/-- Counterexample to claim C2 as stated: `d0` is a stream the numpy calls
can produce (all indices of the price sample coincide), yet only one row
of the synthesized table has a missing price, not fifty. -/
theorem missing_value_counts_cex :
    ValidDraws d0 ∧ countMissingPrice (synthesize d0) = 1 := by
  refine ⟨d0_valid, ?_⟩
  have hlt : ∀ i ∈ d0.priceNaIdx, i < n_samples := by
    intro i hi
    have hi0 : i = 0 := List.eq_of_mem_replicate hi
    rw [hi0]
    norm_num [n_samples]
  rw [countMissingPrice_synthesize d0 hlt]
  decide

/-- Witness for `missing_value_counts` at the concrete stream `d0`. -/
theorem missing_value_counts_witness :
    ValidDraws d0 ∧
    (countMissingPrice (synthesize d0) = d0.priceNaIdx.dedup.length ∧
     countMissingSize (synthesize d0) = d0.sizeNaIdx.dedup.length ∧
     countMissingPrice (synthesize d0) ≤ 50 ∧
     countMissingSize (synthesize d0) ≤ 30 ∧
     (d0.priceNaIdx.Nodup → countMissingPrice (synthesize d0) = 50) ∧
     (d0.sizeNaIdx.Nodup → countMissingSize (synthesize d0) = 30)) :=
  ⟨d0_valid, missing_value_counts d0 d0_valid⟩

/-- Claim C3: after the Cleaner runs, the price and size columns contain no
nulls; every retained row's price and size lie strictly within 3 standard
deviations of the post-imputation mean of its column (stated in the
squared, rational form `(a - m)^2 < 9 * s` with `s` the squared sample
standard deviation); and the row count is at most the original 1000. -/
theorem cleaner_invariant (d : Draws) (hv : ValidDraws d) :
    (∀ r ∈ cleanTable (synthesize d), r.Price.isSome ∧ r.Size.isSome) ∧
    (∀ r ∈ cleanTable (synthesize d),
      ∃ a m s, r.Price = some a ∧
        seriesMean ((imputeTable (synthesize d)).map Row.Price) = some m ∧
        seriesVar ((imputeTable (synthesize d)).map Row.Price) = some s ∧
        0 < s ∧ (a - m) ^ 2 < 9 * s) ∧
    (∀ r ∈ cleanTable (synthesize d),
      ∃ a m s, r.Size = some a ∧
        seriesMean ((imputeTable (synthesize d)).map Row.Size) = some m ∧
        seriesVar ((imputeTable (synthesize d)).map Row.Size) = some s ∧
        0 < s ∧ (a - m) ^ 2 < 9 * s) ∧
    (cleanTable (synthesize d)).length ≤ n_samples := by
  have hp := seriesMedian_isSome (exists_price_some d hv)
  have hs := seriesMean_isSome (exists_size_some d hv)
  refine ⟨?_, ?_, ?_, ?_⟩
  · intro r hr
    exact imputeTable_no_null _ hp hs r ((mem_cleanTable_iff _ r).mp hr).1
  · intro r hr
    obtain ⟨-, hz, -⟩ := (mem_cleanTable_iff _ r).mp hr
    exact zOk_true_elim hz
  · intro r hr
    obtain ⟨-, -, hz⟩ := (mem_cleanTable_iff _ r).mp hr
    exact zOk_true_elim hz
  · rw [← length_synthesize d]
    exact length_cleanTable_le _

/-- Witness for `cleaner_invariant` at the concrete stream `d0`. -/
theorem cleaner_invariant_witness :
    ValidDraws d0 ∧
    ((∀ r ∈ cleanTable (synthesize d0), r.Price.isSome ∧ r.Size.isSome) ∧
     (∀ r ∈ cleanTable (synthesize d0),
       ∃ a m s, r.Price = some a ∧
         seriesMean ((imputeTable (synthesize d0)).map Row.Price) = some m ∧
         seriesVar ((imputeTable (synthesize d0)).map Row.Price) = some s ∧
         0 < s ∧ (a - m) ^ 2 < 9 * s) ∧
     (∀ r ∈ cleanTable (synthesize d0),
       ∃ a m s, r.Size = some a ∧
         seriesMean ((imputeTable (synthesize d0)).map Row.Size) = some m ∧
         seriesVar ((imputeTable (synthesize d0)).map Row.Size) = some s ∧
         0 < s ∧ (a - m) ^ 2 < 9 * s) ∧
     (cleanTable (synthesize d0)).length ≤ n_samples) :=
  ⟨d0_valid, cleaner_invariant d0 d0_valid⟩

/-- Claim C4: during cleaning, every missing price is replaced by the
median of the non-missing prices and every missing size by the mean of the
non-missing sizes, both computed over the pre-imputation column contents
(`t` itself); non-missing cells are unchanged. -/
theorem imputation_rule (t : List Row) (m s : ℚ)
    (hm : seriesMedian (t.map Row.Price) = some m)
    (hs : seriesMean (t.map Row.Size) = some s) :
    (imputeTable t).length = t.length ∧
    ∀ i, i < t.length →
      ((imputeTable t).getD i default).Price
        = (if (t.getD i default).Price = none then some m else (t.getD i default).Price) ∧
      ((imputeTable t).getD i default).Size
        = (if (t.getD i default).Size = none then some s else (t.getD i default).Size) := by
  have hmap : imputeTable t = t.map (fun r => { r with
      Price := fillCell (seriesMedian (t.map Row.Price)) r.Price,
      Size := fillCell (seriesMean (t.map Row.Size)) r.Size }) := rfl
  constructor
  · rw [hmap, List.length_map]
  · intro i hi
    rw [hmap, getD_map_row _ _ _ hi, hm, hs]
    constructor
    · cases hp : (t.getD i default).Price <;> simp [fillCell, hp]
    · cases hsz : (t.getD i default).Size <;> simp [fillCell, hsz]

/-- Witness for `imputation_rule` on the concrete table `tC4`: the price
median over the non-missing values {1, 3} is 2 and the size mean over
{2, 4} is 3. -/
theorem imputation_rule_witness :
    seriesMedian (tC4.map Row.Price) = some 2 ∧
    seriesMean (tC4.map Row.Size) = some 3 ∧
    ((imputeTable tC4).length = tC4.length ∧
     ∀ i, i < tC4.length →
       ((imputeTable tC4).getD i default).Price
         = (if (tC4.getD i default).Price = none then some 2 else (tC4.getD i default).Price) ∧
       ((imputeTable tC4).getD i default).Size
         = (if (tC4.getD i default).Size = none then some 3 else (tC4.getD i default).Size)) :=
  ⟨tC4_price_median, tC4_size_mean, imputation_rule tC4 2 3 tC4_price_median tC4_size_mean⟩

/-- Claim C5: outlier removal is a single, non-iterative filtering pass
after imputation: a row is retained exactly when both its price and size
z-score tests pass, each test using that column's post-imputation mean and
sample standard deviation, fixed up front; and the retained rows form a
sublist (one pass, order preserved) of the imputed table. -/
theorem outlier_single_pass (t : List Row) :
    (∀ r : Row, r ∈ cleanTable t ↔ r ∈ imputeTable t ∧
      zOk r.Price (seriesMean ((imputeTable t).map Row.Price))
        (seriesVar ((imputeTable t).map Row.Price)) = true ∧
      zOk r.Size (seriesMean ((imputeTable t).map Row.Size))
        (seriesVar ((imputeTable t).map Row.Size)) = true) ∧
    (cleanTable t).Sublist (imputeTable t) :=
  ⟨fun r => mem_cleanTable_iff t r, cleanTable_sublist t⟩

/-- Counterexample to claim C6 as stated: on `tC6` the post-imputation
price column is constant (variance 0), every row passes the size test, yet
the cleaned table is empty — so rows ARE excluded on the basis of the
zero-deviation column, contradicting the claim that none are. -/
theorem zero_std_cex :
    seriesVar ((imputeTable tC6).map Row.Price) = some 0 ∧
    (∀ r ∈ imputeTable tC6,
      zOk r.Size (seriesMean ((imputeTable tC6).map Row.Size))
        (seriesVar ((imputeTable tC6).map Row.Size)) = true) ∧
    tC6.length = 3 ∧ cleanTable tC6 = [] := by
  rw [imputeTable_tC6]
  refine ⟨tC6_price_var, ?_, rfl, cleanTable_tC6⟩
  rw [tC6_size_mean, tC6_size_var]
  intro r hr
  fin_cases hr <;> norm_num [simpleRow, zOk]

/-- Claim C6, amended: if a column's post-imputation standard deviation is
zero, the z-scores of that column are NaN (`0/0`), the strict comparison
with 3 fails for every row, and the outlier step drops the whole table —
the opposite of excluding no row on that basis. -/
theorem zero_std_drops_all (t : List Row)
    (h : seriesVar ((imputeTable t).map Row.Price) = some 0 ∨
         seriesVar ((imputeTable t).map Row.Size) = some 0) :
    cleanTable t = [] := by
  unfold cleanTable astypeCols removeOutliers
  rw [List.filter_eq_nil_iff]
  intro r hr
  rw [Bool.and_eq_true]
  rintro ⟨h1, h2⟩
  rcases h with h | h
  · rw [h] at h1
    obtain ⟨a, m, s, -, -, hsv, hpos, -⟩ := zOk_true_elim h1
    rw [Option.some_inj] at hsv
    rw [← hsv] at hpos
    exact lt_irrefl 0 hpos
  · rw [h] at h2
    obtain ⟨a, m, s, -, -, hsv, hpos, -⟩ := zOk_true_elim h2
    rw [Option.some_inj] at hsv
    rw [← hsv] at hpos
    exact lt_irrefl 0 hpos

/-- Witness for `zero_std_drops_all` at the concrete table `tC6`. -/
theorem zero_std_drops_all_witness :
    (seriesVar ((imputeTable tC6).map Row.Price) = some 0 ∨
     seriesVar ((imputeTable tC6).map Row.Size) = some 0) ∧ cleanTable tC6 = [] :=
  ⟨Or.inl (imputeTable_tC6 ▸ tC6_price_var),
   zero_std_drops_all tC6 (Or.inl (imputeTable_tC6 ▸ tC6_price_var))⟩

/-- Claim C7: `housing_data.csv` is written exactly once, after the
Synthesizer and before any cleaning, so its contents are the raw
pre-imputation table — one row per generated record (`n_samples` of them)
— with a header row matching the Record schema field names. -/
theorem csv_written_once_raw (d : Draws) :
    (runScript d).csvWrites = [(csvHeader, synthesize d)] ∧
    csvHeader = recordFieldNames ∧
    (synthesize d).length = n_samples :=
  ⟨rfl, rfl, length_synthesize d⟩

/-- Claim C8: every record of the synthesized table satisfies the Record
schema ranges — bedrooms in [1,5], bathrooms in [1,3], age in [0,49],
neighborhood quality one of the three labels — and the `i`-th record's
sale date is exactly `i` days after 2023-01-01, assigned deterministically. -/
theorem synthesized_schema (d : Draws) (hv : ValidDraws d) (i : ℕ) (hi : i < n_samples) :
    1 ≤ ((synthesize d).getD i default).Bedrooms ∧
    ((synthesize d).getD i default).Bedrooms ≤ 5 ∧
    1 ≤ ((synthesize d).getD i default).Bathrooms ∧
    ((synthesize d).getD i default).Bathrooms ≤ 3 ∧
    0 ≤ ((synthesize d).getD i default).Age ∧
    ((synthesize d).getD i default).Age ≤ 49 ∧
    (((synthesize d).getD i default).Neighborhood_Quality = Quality.Low ∨
     ((synthesize d).getD i default).Neighborhood_Quality = Quality.Medium ∨
     ((synthesize d).getD i default).Neighborhood_Quality = Quality.High) ∧
    ((synthesize d).getD i default).Sale_Date = i := by
  obtain ⟨-, -, hbl, hbal, hal, -, -, hbb, hbab, hab, -, -, -, -⟩ := hv
  have hg : (synthesize d).getD i default = synthRow d i := by
    rw [synthesize_eq, List.getD_eq_getElem?_getD, List.getElem?_map, List.getElem?_range hi]
    rfl
  obtain ⟨hfb, hfba, hfa, hfq, hfs⟩ := synthRow_frame d i
  rw [hg, hfb, hfba, hfa, hfq, hfs]
  have hb := hbb _ (getD_mem_of_lt d.bedrooms i 0 (by rw [hbl]; exact hi))
  have hba := hbab _ (getD_mem_of_lt d.bathrooms i 0 (by rw [hbal]; exact hi))
  have ha := hab _ (getD_mem_of_lt d.ages i 0 (by rw [hal]; exact hi))
  refine ⟨by omega, by omega, by omega, by omega, by omega, by omega, ?_, rfl⟩
  cases d.qualities.getD i Quality.Low with
  | Low => exact Or.inl rfl
  | Medium => exact Or.inr (Or.inl rfl)
  | High => exact Or.inr (Or.inr rfl)

/-- Witness for `synthesized_schema` at the concrete stream `d0`, row 0. -/
theorem synthesized_schema_witness :
    ValidDraws d0 ∧ (0 : ℕ) < n_samples ∧
    (1 ≤ ((synthesize d0).getD 0 default).Bedrooms ∧
     ((synthesize d0).getD 0 default).Bedrooms ≤ 5 ∧
     1 ≤ ((synthesize d0).getD 0 default).Bathrooms ∧
     ((synthesize d0).getD 0 default).Bathrooms ≤ 3 ∧
     0 ≤ ((synthesize d0).getD 0 default).Age ∧
     ((synthesize d0).getD 0 default).Age ≤ 49 ∧
     (((synthesize d0).getD 0 default).Neighborhood_Quality = Quality.Low ∨
      ((synthesize d0).getD 0 default).Neighborhood_Quality = Quality.Medium ∨
      ((synthesize d0).getD 0 default).Neighborhood_Quality = Quality.High) ∧
     ((synthesize d0).getD 0 default).Sale_Date = 0) :=
  ⟨d0_valid, by norm_num [n_samples], synthesized_schema d0 d0_valid 0 (by norm_num [n_samples])⟩

/-- Claim C9 (implicit frame property): the Cleaner preserves the relative
order of the rows it keeps (the cleaned table is a sublist of the imputed
one), imputation rewrites only `Price` and `Size` (the imputed table is
pointwise frame-equal to its input), and hence every retained row agrees
with some synthesized row on all fields other than price and size. -/
theorem cleaner_frame (t : List Row) :
    (cleanTable t).Sublist (imputeTable t) ∧
    List.Forall₂ frameEq (imputeTable t) t ∧
    ∀ r ∈ cleanTable t, ∃ s ∈ t, frameEq r s := by
  have hsub := cleanTable_sublist t
  have hmap : imputeTable t = t.map (fun r => { r with
      Price := fillCell (seriesMedian (t.map Row.Price)) r.Price,
      Size := fillCell (seriesMean (t.map Row.Size)) r.Size }) := rfl
  have hf : List.Forall₂ frameEq (imputeTable t) t := by
    rw [hmap, List.forall₂_map_left_iff]
    exact List.forall₂_same.mpr (fun s _ => ⟨rfl, rfl, rfl, rfl, rfl, rfl⟩)
  refine ⟨hsub, hf, ?_⟩
  intro r hr
  have hr' : r ∈ imputeTable t := hsub.subset hr
  rw [hmap] at hr'
  obtain ⟨s, hs, rfl⟩ := List.mem_map.mp hr'
  exact ⟨s, hs, rfl, rfl, rfl, rfl, rfl, rfl⟩

/-- Claim C10 (implicit): the standard deviation in the outlier z-scores is
the sample one with divisor n-1 (pandas `ddof=1` default, embedded in
`seriesVar`), not the population one with divisor n, and the choice
determines which rows survive: on `tC10` the sample convention keeps all
ten rows while the population convention would drop the outlier. -/
theorem sample_std_used :
    (cleanTable tC10).length = 10 ∧
    (cleanTablePop tC10).length = 9 ∧
    seriesVar (tC10.map Row.Price) = some 10 ∧
    seriesVarPop (tC10.map Row.Price) = some 9 :=
  ⟨cleanTable_tC10, cleanTablePop_tC10, tC10_price_var, tC10_price_varp⟩
